import Mathlib

/-!
# Verification of the Image_Enhancement_Tool core (`MainCode.py`)

A shallow embedding of the program's data model and operations, followed by
theorems settling the specification claims.

Modelling conventions:
* A pixel buffer is a list of rows, each row a list of RGB triples of
  integers; valid 8-bit channels lie in `[0, 255]`.
* Python/NumPy floating point is modelled by exact arithmetic: rational
  numbers `ℚ` where the source only adds/multiplies/divides, and real
  numbers `ℝ` where the source takes powers (`skimage.exposure.adjust_gamma`)
  or logarithms (`skimage.exposure.adjust_log`).
* Float-to-8-bit conversion (`skimage.img_as_ubyte`, NumPy `rint`,
  OpenCV `saturate_cast`) is modelled as round-half-up `⌊x + 1/2⌋`;
  the claims proved here never sit on a tie, so the half-even/half-up
  difference is immaterial.  PIL's C blend casts float to `UINT8` by
  truncation after clipping, modelled as `⌊·⌋` after clipping.
* OpenCV's fixed-point YCrCb coefficients are modelled by their defining
  rational constants (0.299, 0.587, 0.114, 0.713, 0.564, 1.403, 0.714,
  0.344, 1.773).
-/

/-- A pixel: an RGB triple of integer channel values (8-bit in range). -/
abbrev Pix := ℤ × ℤ × ℤ

/-- A pixel buffer: rows of pixels (NumPy shape `(height, width, 3)`). -/
abbrev Img := List (List Pix)

/-- Channel value in 8-bit range. -/
def chOk (x : ℤ) : Prop := 0 ≤ x ∧ x ≤ 255

instance (x : ℤ) : Decidable (chOk x) :=
  inferInstanceAs (Decidable (0 ≤ x ∧ x ≤ 255))

/-- All three channels in 8-bit range. -/
def pixOk (p : Pix) : Prop := chOk p.1 ∧ chOk p.2.1 ∧ chOk p.2.2

instance (p : Pix) : Decidable (pixOk p) :=
  inferInstanceAs (Decidable (chOk p.1 ∧ chOk p.2.1 ∧ chOk p.2.2))

/-- Every channel of every pixel of the buffer is in 8-bit range. -/
def imgOk (img : Img) : Prop := ∀ row ∈ img, ∀ p ∈ row, pixOk p

instance (img : Img) : Decidable (imgOk img) :=
  inferInstanceAs (Decidable (∀ row ∈ img, ∀ p ∈ row, pixOk p))

/-- Apply a function to each of the three channels of a pixel. -/
def mapPix (f : ℤ → ℤ) (p : Pix) : Pix := (f p.1, f p.2.1, f p.2.2)

/-- Apply a pixel function to every pixel of a buffer. -/
def mapImg (f : Pix → Pix) (img : Img) : Img := img.map (List.map f)

/-- Round half up on rationals (models NumPy rounding away from ties). -/
def roundQ (x : ℚ) : ℤ := ⌊x + 1/2⌋

/-- Clip a rational to `[lo, hi]`. -/
def clipQ (lo hi x : ℚ) : ℚ := max lo (min hi x)

/-- Clip a real to `[0, 1]` (the `np.clip(·, 0, 1)` calls in the source). -/
noncomputable def clip01 (x : ℝ) : ℝ := max 0 (min 1 x)

/-- `skimage.img_as_float` on one 8-bit channel value: exact division. -/
noncomputable def asFloat (v : ℤ) : ℝ := (v : ℝ) / 255

/-- `skimage.img_as_ubyte` on one normalized float channel value:
multiply by 255 and round (round-half-up model of `np.rint`). -/
noncomputable def asUbyte (x : ℝ) : ℤ := ⌊255 * x + 1/2⌋

/-! ## Gamma (`apply_gamma`, source lines 45–61)

`skimage.exposure.adjust_gamma` on a `[0,1]` float array is the
per-channel power law `out = in ** gamma`; the source converts the image
with `img_as_float`, applies it, clips to `[0,1]`, and converts back with
`img_as_ubyte`. -/

/-- One channel of `apply_gamma`: `img_as_ubyte (clip (img_as_float v ^ γ))`. -/
noncomputable def gammaPix (γ : ℝ) (v : ℤ) : ℤ :=
  asUbyte (clip01 (asFloat v ^ γ))

/-- `apply_gamma` from the source: per-channel power law on the normalized
float buffer, clipped to `[0,1]`, converted back to 8-bit. -/
noncomputable def apply_gamma (img : Img) (γ : ℝ) : Img :=
  mapImg (mapPix (gammaPix γ)) img

/-! ## Exposure (`adjust_exposure`, source lines 135–151)

`skimage.exposure.adjust_log(arr, gain)` on a `[0,1]` float array computes
`out = gain * log2(1 + in)`; the source clips the result to `[0,1]` and
converts back to 8-bit. -/

/-- One channel of `adjust_exposure`:
`img_as_ubyte (clip (gain * log2 (1 + img_as_float v)))`. -/
noncomputable def logPix (gain : ℝ) (v : ℤ) : ℤ :=
  asUbyte (clip01 (gain * Real.logb 2 (1 + asFloat v)))

/-- `adjust_exposure` from the source: `skimage` logarithmic adjustment on
the normalized float buffer, clipped to `[0,1]`, converted back to 8-bit. -/
noncomputable def adjust_exposure (img : Img) (gain : ℝ) : Img :=
  mapImg (mapPix (logPix gain)) img

/-! ## PIL `ImageEnhance` operations (source lines 83–132)

Each PIL enhancer computes a `degenerate` image and returns
`Image.blend(degenerate, image, factor)`, which per channel computes
`degenerate + factor * (image - degenerate)` in float, clips to
`[0, 255]`, and casts to `UINT8` (truncation, modelled as floor). -/

/-- One channel of `Image.blend(degenerate, image, factor)`. -/
def blendPix (factor : ℚ) (d v : ℤ) : ℤ :=
  ⌊clipQ 0 255 ((d : ℚ) + factor * ((v : ℚ) - (d : ℚ)))⌋

/-- Blend on a whole pixel against a degenerate pixel. -/
def blend3 (factor : ℚ) (d v : Pix) : Pix :=
  (blendPix factor d.1 v.1, blendPix factor d.2.1 v.2.1, blendPix factor d.2.2 v.2.2)

/-- PIL grayscale (`convert("L")`) of one RGB pixel:
`(19595 R + 38470 G + 7471 B + 32768) >> 16` (PIL's `L24` fixed point). -/
def grayPix (p : Pix) : ℤ :=
  (19595 * p.1 + 38470 * p.2.1 + 7471 * p.2.2 + 32768) / 65536

/-- `adjust_brightness` from the source: `ImageEnhance.Brightness`, whose
degenerate image is all black. -/
def adjust_brightness (img : Img) (factor : ℚ) : Img :=
  mapImg (fun p => blend3 factor (0, 0, 0) p) img

/-- `ImageStat.Stat(image.convert("L")).mean[0]` rounded with
`int(mean + 0.5)`: the mean gray level used by `ImageEnhance.Contrast`. -/
def contrastMean (img : Img) : ℤ :=
  let gs := (img.map (List.map grayPix)).flatten
  ⌊((gs.sum : ℚ) / (gs.length : ℚ)) + 1/2⌋

/-- `adjust_contrast` from the source: `ImageEnhance.Contrast`, whose
degenerate image is the constant mean-gray image. -/
def adjust_contrast (img : Img) (factor : ℚ) : Img :=
  let m := contrastMean img
  mapImg (fun p => blend3 factor (m, m, m) p) img

/-- `adjust_saturation` from the source: `ImageEnhance.Color`, whose
degenerate image is the grayscale image replicated to RGB. -/
def adjust_saturation (img : Img) (factor : ℚ) : Img :=
  mapImg (fun p => blend3 factor (grayPix p, grayPix p, grayPix p) p) img

/-- Indexed map starting at index `n` (explicit recursion for easy proofs). -/
def mapIdxFrom (f : ℕ → α → β) : ℕ → List α → List β
  | _, [] => []
  | n, a :: as => f n a :: mapIdxFrom f (n + 1) as

/-- Pixel lookup with a default, for the smoothing kernel. -/
def pixAt (img : Img) (i j : ℕ) : Pix := (img.getD i []).getD j (0, 0, 0)

/-- One channel of PIL's 3×3 `SMOOTH` kernel `((1,1,1),(1,5,1),(1,1,1)) / 13`
at interior position `(i, j)` (`i, j ≥ 1`). -/
def smoothCh (c : Pix → ℤ) (img : Img) (i j : ℕ) : ℤ :=
  let s : ℤ :=
    c (pixAt img (i - 1) (j - 1)) + c (pixAt img (i - 1) j) +
      c (pixAt img (i - 1) (j + 1)) +
    c (pixAt img i (j - 1)) + 5 * c (pixAt img i j) + c (pixAt img i (j + 1)) +
    c (pixAt img (i + 1) (j - 1)) + c (pixAt img (i + 1) j) +
      c (pixAt img (i + 1) (j + 1))
  roundQ ((s : ℚ) / 13)

/-- PIL's `filter(ImageFilter.SMOOTH)` at position `(i, j)`: border pixels
are copied unchanged, interior pixels get the 3×3 kernel. -/
def smoothAt (img : Img) (i j : ℕ) (p : Pix) : Pix :=
  if i = 0 ∨ i + 1 = img.length ∨ j = 0 ∨ j + 1 = (img.getD i []).length then p
  else (smoothCh (fun q => q.1) img i j,
        smoothCh (fun q => q.2.1) img i j,
        smoothCh (fun q => q.2.2) img i j)

/-- `adjust_sharpness` from the source: `ImageEnhance.Sharpness`, whose
degenerate image is the `SMOOTH`-filtered image. -/
def adjust_sharpness (img : Img) (factor : ℚ) : Img :=
  mapIdxFrom (fun i row =>
    mapIdxFrom (fun j p => blend3 factor (smoothAt img i j p) p) 0 row) 0 img

/-! ## Histogram equalization (`apply_hist_eq`, source lines 64–80)

`cv2.cvtColor(RGB → YCrCb)`, `cv2.equalizeHist` on the Y plane written back
in place, `cv2.cvtColor(YCrCb → RGB)`. -/

/-- OpenCV `saturate_cast<uchar>` of a float: round then clip to `[0,255]`. -/
def sat255 (x : ℚ) : ℤ := max 0 (min 255 (roundQ x))

/-- OpenCV RGB → YCrCb on one pixel (`delta = 128`); Cr and Cb are computed
from the already-rounded Y as in OpenCV's fixed-point pipeline. -/
def rgb2ycrcb (p : Pix) : Pix :=
  let y : ℤ := roundQ ((299/1000) * (p.1 : ℚ) + (587/1000) * (p.2.1 : ℚ) +
    (114/1000) * (p.2.2 : ℚ))
  (y, sat255 (((p.1 : ℚ) - (y : ℚ)) * (713/1000) + 128),
      sat255 (((p.2.2 : ℚ) - (y : ℚ)) * (564/1000) + 128))

/-- OpenCV YCrCb → RGB on one pixel, with saturating casts. -/
def ycrcb2rgb (p : Pix) : Pix :=
  (sat255 ((p.1 : ℚ) + (1403/1000) * ((p.2.1 : ℚ) - 128)),
   sat255 ((p.1 : ℚ) - (714/1000) * ((p.2.1 : ℚ) - 128) -
     (344/1000) * ((p.2.2 : ℚ) - 128)),
   sat255 ((p.1 : ℚ) + (1773/1000) * ((p.2.2 : ℚ) - 128)))

/-- Cumulative count of luma values `≤ v` in the flattened Y plane. -/
def lumaCdf (ys : List ℤ) (v : ℤ) : ℕ := (ys.filter (fun y => decide (y ≤ v))).length

/-- Smallest luma value present (OpenCV scans for the first nonzero bin). -/
def lumaMin (ys : List ℤ) : ℤ := ys.foldr min 255

/-- OpenCV `equalizeHist` as a lookup function on luma values: the first
occupied bin maps to 0, bin `v` maps to
`saturate (255 * (cdf v - hist i0) / (total - hist i0))`; a constant image
is mapped to itself (OpenCV's `dst.setTo(i0)` branch). -/
def equalizeY (ys : List ℤ) (v : ℤ) : ℤ :=
  let total := ys.length
  let i0 := lumaMin ys
  let h0 := ys.count i0
  if h0 = total then i0
  else sat255 (255 * (((lumaCdf ys v : ℚ) - (h0 : ℚ)) / ((total : ℚ) - (h0 : ℚ))))

/-- `apply_hist_eq` from the source: convert to YCrCb, equalize the Y plane
in place via the global LUT, convert back to RGB. -/
def apply_hist_eq (img : Img) : Img :=
  let ycrcb := img.map (List.map rgb2ycrcb)
  let ys := (ycrcb.map (List.map (fun p => p.1))).flatten
  let ycrcb2 := ycrcb.map (List.map (fun p => (equalizeY ys p.1, p.2.1, p.2.2)))
  ycrcb2.map (List.map ycrcb2rgb)

/-! ## Saving (`save_image`, source lines 23–42)

`ext = path.split('.')[-1].lower()`; JPEG gets
`quality`, `optimize=True`, `subsampling=0`; PNG gets `compress_level=1`;
any other extension passes no options to `image.save`.  A path is modelled
as its character sequence. -/

/-- Python `str.lower` on one character (ASCII range, as used on paths). -/
def lowerChar (c : Char) : Char :=
  if 'A' ≤ c ∧ c ≤ 'Z' then Char.ofNat (c.toNat + 32) else c

/-- Python `str.lower` on a character sequence. -/
def lowerStr (s : List Char) : List Char := s.map lowerChar

/-- Python `path.split('.')[-1]`: the segment after the last dot, or the
whole string when there is no dot. -/
def lastSeg (s : List Char) : List Char :=
  s.foldl (fun acc c => if c = '.' then [] else acc ++ [c]) []

/-- The keyword options `save_image` passes to `PIL.Image.save`. -/
inductive SaveOpts where
  /-- `quality=q, optimize=o, subsampling=s` for JPEG. -/
  | jpeg (quality : ℤ) (optimize : Bool) (subsampling : ℤ)
  /-- `compress_level=c` for PNG. -/
  | png (compressLevel : ℤ)
  /-- no explicit options. -/
  | none
deriving DecidableEq

/-- The option-selection logic of `save_image`: dispatch on
`path.split('.')[-1].lower()`. -/
def save_image (path : List Char) (quality : ℤ) : SaveOpts :=
  let ext := lowerStr (lastSeg path)
  if ext = [ 'j', 'p', 'g' ] ∨ ext = [ 'j', 'p', 'e', 'g' ] then
    SaveOpts.jpeg quality true 0
  else if ext = [ 'p', 'n', 'g' ] then SaveOpts.png 1
  else SaveOpts.none

/-! ## The interactive controller (`main`, source lines 154–221)

One loop iteration: read a menu choice (with the numeric parameter or save
path it consumes), dispatch, then — after the dispatch — print `"Applied."`
and `current.show()` whenever the `modified` flag is (still) true.
Choice `'0'` breaks out of the loop before that trailing block. -/

/-- Controller session state: the working buffer and the modified flag. -/
structure St where
  /-- the `current` working image -/
  current : Img
  /-- the `modified` since-last-save flag -/
  modified : Bool
deriving DecidableEq

/-- One round of console input: the menu choice string, the numeric
parameter consumed by choices 1–7, and the path consumed by choice 9. -/
structure Inp where
  /-- the menu choice as typed -/
  choice : String
  /-- the float parameter (choices 1, 3–7) -/
  param : ℚ
  /-- the save path (choice 9) -/
  savePath : List Char
deriving DecidableEq

/-- Observable side effects of one loop iteration. -/
structure Out where
  /-- the trailing `print("Applied."); current.show()` block ran -/
  applied : Bool
  /-- choice 8 displayed the image -/
  shown : Bool
  /-- a file write: the saved buffer, its path, and the JPEG quality used -/
  saved : Option (Img × List Char × ℤ)
  /-- `"Nothing to save."` was printed -/
  nothingToSave : Bool
  /-- `"Invalid."` was printed -/
  invalid : Bool
  /-- choice 0 left the loop -/
  exited : Bool
deriving DecidableEq

/-- The all-quiet iteration output. -/
def quietOut : Out :=
  { applied := false, shown := false, saved := Option.none,
    nothingToSave := false, invalid := false, exited := false }

/-- The `elif` dispatch of the loop body (everything except choice `'0'`
and the trailing confirmation block). -/
noncomputable def dispatch (s : St) (i : Inp) : St × Out :=
  if i.choice = "1" then
    (⟨apply_gamma s.current (i.param : ℝ), true⟩, quietOut)
  else if i.choice = "2" then
    (⟨apply_hist_eq s.current, true⟩, quietOut)
  else if i.choice = "3" then
    (⟨adjust_brightness s.current i.param, true⟩, quietOut)
  else if i.choice = "4" then
    (⟨adjust_contrast s.current i.param, true⟩, quietOut)
  else if i.choice = "5" then
    (⟨adjust_sharpness s.current i.param, true⟩, quietOut)
  else if i.choice = "6" then
    (⟨adjust_saturation s.current i.param, true⟩, quietOut)
  else if i.choice = "7" then
    (⟨adjust_exposure s.current (i.param : ℝ), true⟩, quietOut)
  else if i.choice = "8" then
    (s, { quietOut with shown := true })
  else if i.choice = "9" then
    if s.modified then
      (⟨s.current, false⟩,
        { quietOut with saved := Option.some (s.current, i.savePath, 100) })
    else (s, { quietOut with nothingToSave := true })
  else (s, { quietOut with invalid := true })

/-- One full loop iteration of `main`: the `'0'` break, the dispatch, and
the trailing `if modified: print("Applied."); current.show()` block, which
reads the flag left by the dispatch. -/
noncomputable def step (s : St) (i : Inp) : St × Out :=
  if i.choice = "0" then (s, { quietOut with exited := true })
  else
    let r := dispatch s i
    (r.1, { r.2 with applied := r.1.modified })

/-- Run the loop on a list of inputs, collecting the post-state and output
of each iteration; stops after a `'0'` iteration. -/
noncomputable def runLoop (s : St) : List Inp → List (St × Out)
  | [] => []
  | i :: rest =>
    let r := step s i
    r :: (if r.2.exited then [] else runLoop r.1 rest)

/-- Outcome of a whole `main` invocation. -/
structure MainRes where
  /-- the process exit status -/
  exitCode : ℕ
  /-- `"Error loading image:"` was printed -/
  errorPrinted : Bool
  /-- the iterations of the menu loop that ran -/
  loop : List (St × Out)
deriving DecidableEq

/-- `main` from the source: one load attempt; on failure print the error
and return (Python then exits with status 0, the loop never runs and the
load is never retried); on success enter the loop with `modified = False`. -/
noncomputable def mainRun (loadRes : Except String Img) (inputs : List Inp) :
    MainRes :=
  match loadRes with
  | Except.error _ => ⟨0, true, []⟩
  | Except.ok img => ⟨0, false, runLoop ⟨img, false⟩ inputs⟩

/-! ## Heap model for the frame claim

Python objects live on a heap; each operation of the source allocates fresh
buffers and never writes the pixels of its argument (`apply_hist_eq`'s
in-place `ycrcb[:, :, 0] = ...` hits the intermediate array `cv2.cvtColor`
just allocated).  A store is a list of buffers addressed by index; each
store-level operation reads buffer `i` and appends its result. -/

/-- The heap of live pixel buffers. -/
abbrev Store := List Img

/-- Allocate a buffer: append it and return its fresh index. -/
def allocBuf (s : Store) (b : Img) : Store × ℕ := (s ++ [b], s.length)

/-- `apply_gamma` at the heap level. -/
noncomputable def applyGammaH (s : Store) (i : ℕ) (γ : ℝ) : Store × ℕ :=
  allocBuf s (apply_gamma (s.getD i []) γ)

/-- `adjust_exposure` at the heap level. -/
noncomputable def adjustExposureH (s : Store) (i : ℕ) (g : ℝ) : Store × ℕ :=
  allocBuf s (adjust_exposure (s.getD i []) g)

/-- `adjust_brightness` at the heap level. -/
def adjustBrightnessH (s : Store) (i : ℕ) (f : ℚ) : Store × ℕ :=
  allocBuf s (adjust_brightness (s.getD i []) f)

/-- `adjust_contrast` at the heap level. -/
def adjustContrastH (s : Store) (i : ℕ) (f : ℚ) : Store × ℕ :=
  allocBuf s (adjust_contrast (s.getD i []) f)

/-- `adjust_sharpness` at the heap level. -/
def adjustSharpnessH (s : Store) (i : ℕ) (f : ℚ) : Store × ℕ :=
  allocBuf s (adjust_sharpness (s.getD i []) f)

/-- `adjust_saturation` at the heap level. -/
def adjustSaturationH (s : Store) (i : ℕ) (f : ℚ) : Store × ℕ :=
  allocBuf s (adjust_saturation (s.getD i []) f)

/-- `apply_hist_eq` at the heap level, exposing its intermediate: the
YCrCb array is allocated by `cv2.cvtColor`, its Y plane is overwritten in
place (a `List.set` on the store), and the result is a further fresh
buffer. -/
def applyHistEqH (s : Store) (i : ℕ) : Store × ℕ :=
  let arr := s.getD i []
  let r1 := allocBuf s (arr.map (List.map rgb2ycrcb))
  let ycrcb := r1.1.getD r1.2 []
  let ys := (ycrcb.map (List.map (fun p => p.1))).flatten
  let s2 := r1.1.set r1.2
    (ycrcb.map (List.map (fun p => (equalizeY ys p.1, p.2.1, p.2.2))))
  allocBuf s2 ((s2.getD r1.2 []).map (List.map ycrcb2rgb))

/-- A store-level operation result is a fresh allocation over store `s`:
the old buffers survive unchanged (as a prefix) and the returned index is
outside the old store. -/
def freshAlloc (s : Store) (r : Store × ℕ) : Prop :=
  r.1.take s.length = s ∧ s.length ≤ r.2 ∧
    ∀ k, k < s.length → r.1.getD k [] = s.getD k []

/-! ## Spec-side definitions for refinement comparison -/

/-- The spec's stated exposure curve, written from the spec's words
`out = log(1 + gain * in) / log(1 + gain)` on normalized values, then
clipped — to be compared against the source's `adjust_exposure`. -/
noncomputable def specLogRemapPix (gain : ℝ) (v : ℤ) : ℤ :=
  asUbyte (clip01 (Real.log (1 + gain * asFloat v) / Real.log (1 + gain)))

/-- The spec's exposure operation on a whole buffer. -/
noncomputable def spec_adjust_exposure (img : Img) (gain : ℝ) : Img :=
  mapImg (mapPix (specLogRemapPix gain)) img

/-- The menu choices (`'1'`–`'7'`) that dispatch an adjustment operation. -/
def opChoices : List String := ["1", "2", "3", "4", "5", "6", "7"]

/-! # Lemmas and claim theorems -/

/-! ## Controller step lemmas -/

lemma step_not_exit (s : St) (i : Inp) (h : i.choice ≠ "0") :
    step s i =
      ((dispatch s i).1,
        { (dispatch s i).2 with applied := (dispatch s i).1.modified }) := by
  simp [step, h]

lemma dispatch_c1 (s : St) (i : Inp) (h : i.choice = "1") :
    dispatch s i = (⟨apply_gamma s.current (i.param : ℝ), true⟩, quietOut) := by
  simp [dispatch, h]

lemma dispatch_c2 (s : St) (i : Inp) (h : i.choice = "2") :
    dispatch s i = (⟨apply_hist_eq s.current, true⟩, quietOut) := by
  simp [dispatch, h]

lemma dispatch_c3 (s : St) (i : Inp) (h : i.choice = "3") :
    dispatch s i = (⟨adjust_brightness s.current i.param, true⟩, quietOut) := by
  simp [dispatch, h]

lemma dispatch_c4 (s : St) (i : Inp) (h : i.choice = "4") :
    dispatch s i = (⟨adjust_contrast s.current i.param, true⟩, quietOut) := by
  simp [dispatch, h]

lemma dispatch_c5 (s : St) (i : Inp) (h : i.choice = "5") :
    dispatch s i = (⟨adjust_sharpness s.current i.param, true⟩, quietOut) := by
  simp [dispatch, h]

lemma dispatch_c6 (s : St) (i : Inp) (h : i.choice = "6") :
    dispatch s i = (⟨adjust_saturation s.current i.param, true⟩, quietOut) := by
  simp [dispatch, h]

lemma dispatch_c7 (s : St) (i : Inp) (h : i.choice = "7") :
    dispatch s i = (⟨adjust_exposure s.current (i.param : ℝ), true⟩, quietOut) := by
  simp [dispatch, h]

lemma dispatch_c8 (s : St) (i : Inp) (h : i.choice = "8") :
    dispatch s i = (s, { quietOut with shown := true }) := by
  simp [dispatch, h]

lemma dispatch_c9_mod (s : St) (i : Inp) (h : i.choice = "9")
    (hm : s.modified = true) :
    dispatch s i =
      (⟨s.current, false⟩,
        { quietOut with saved := Option.some (s.current, i.savePath, 100) }) := by
  simp [dispatch, h, hm]

lemma dispatch_c9_unmod (s : St) (i : Inp) (h : i.choice = "9")
    (hm : s.modified = false) :
    dispatch s i = (s, { quietOut with nothingToSave := true }) := by
  simp [dispatch, h, hm]

lemma dispatch_invalid (s : St) (i : Inp) (h : i.choice ∉ opChoices)
    (h8 : i.choice ≠ "8") (h9 : i.choice ≠ "9") :
    dispatch s i = (s, { quietOut with invalid := true }) := by
  simp only [opChoices, List.mem_cons, List.not_mem_nil, or_false, not_or] at h
  obtain ⟨h1, h2, h3, h4, h5, h6, h7⟩ := h
  simp [dispatch, h1, h2, h3, h4, h5, h6, h7, h8, h9]

lemma dispatch_op_modified (s : St) (i : Inp) (h : i.choice ∈ opChoices) :
    (dispatch s i).1.modified = true := by
  simp only [opChoices, List.mem_cons, List.not_mem_nil, or_false] at h
  rcases h with h | h | h | h | h | h | h <;>
    simp only [dispatch_c1 s i, dispatch_c2 s i, dispatch_c3 s i, dispatch_c4 s i,
      dispatch_c5 s i, dispatch_c6 s i, dispatch_c7 s i, h]

lemma dispatch_exited (s : St) (i : Inp) : (dispatch s i).2.exited = false := by
  by_cases h1 : i.choice = "1"
  · rw [dispatch_c1 s i h1]; rfl
  by_cases h2 : i.choice = "2"
  · rw [dispatch_c2 s i h2]; rfl
  by_cases h3 : i.choice = "3"
  · rw [dispatch_c3 s i h3]; rfl
  by_cases h4 : i.choice = "4"
  · rw [dispatch_c4 s i h4]; rfl
  by_cases h5 : i.choice = "5"
  · rw [dispatch_c5 s i h5]; rfl
  by_cases h6 : i.choice = "6"
  · rw [dispatch_c6 s i h6]; rfl
  by_cases h7 : i.choice = "7"
  · rw [dispatch_c7 s i h7]; rfl
  by_cases h8 : i.choice = "8"
  · rw [dispatch_c8 s i h8]; rfl
  by_cases h9 : i.choice = "9"
  · cases hm : s.modified
    · rw [dispatch_c9_unmod s i h9 hm]; rfl
    · rw [dispatch_c9_mod s i h9 hm]; rfl
  have hop : i.choice ∉ opChoices := by
    simp [opChoices, h1, h2, h3, h4, h5, h6, h7]
  rw [dispatch_invalid s i hop h8 h9]; rfl

/-! ## Controller claims -/

/-- C2 counterexample: the claim that confirmation/redisplay happen only in
iterations where `modified` became true is false — after a choice-1
modification (iteration 1), a choice-8 show iteration with the modification
still pending also gets the confirmation block (`applied = true`), even
though its choice was `'8'` and the flag was already true before it. -/
theorem C2_counterexample :
    ((step ⟨[[(100, 100, 100)]], false⟩ ⟨"1", 2, []⟩).1.modified = true) ∧
    ((step (step ⟨[[(100, 100, 100)]], false⟩ ⟨"1", 2, []⟩).1
        ⟨"8", 0, []⟩).2.applied = true) ∧
    ((step (step ⟨[[(100, 100, 100)]], false⟩ ⟨"1", 2, []⟩).1
        ⟨"8", 0, []⟩).1.modified = true) := by
  have h1 : (step (⟨[[(100, 100, 100)]], false⟩ : St) ⟨"1", 2, []⟩).1 =
      ⟨apply_gamma [[(100, 100, 100)]] ((2 : ℚ) : ℝ), true⟩ := by
    rw [step_not_exit _ _ (by decide), dispatch_c1 _ _ rfl]
  refine ⟨by rw [h1], ?_, ?_⟩
  · rw [h1, step_not_exit _ _ (by decide), dispatch_c8 _ _ rfl]
  · rw [h1, step_not_exit _ _ (by decide), dispatch_c8 _ _ rfl]

/-- C2 amended: in every non-exit iteration the confirmation
(`print("Applied.")` plus automatic display) runs if and only if the
`modified` flag is true at the end of that iteration — regardless of
whether it became true during it; an exit iteration never confirms. -/
theorem C2_amended_confirmation (s : St) (i : Inp) :
    (step s i).2.applied = true ↔
      (step s i).2.exited = false ∧ (step s i).1.modified = true := by
  by_cases h0 : i.choice = "0"
  · have hs : step s i = (s, { quietOut with exited := true }) := by
      simp [step, h0]
    rw [hs]
    simp [quietOut]
  · rw [step_not_exit s i h0]
    simp [dispatch_exited s i]

/-- C4: on menu choice `'9'`, if `modified` is true the controller saves the
current buffer to the prompted path at the default quality 100 and clears
the flag (and prints no notice); if `modified` is false it prints the
"nothing to save" notice, writes no file, and leaves the state unchanged. -/
theorem C4_save_semantics (s : St) (i : Inp) (h9 : i.choice = "9") :
    (s.modified = true →
      step s i = (⟨s.current, false⟩,
        { quietOut with saved := Option.some (s.current, i.savePath, 100) })) ∧
    (s.modified = false →
      step s i = (s, { quietOut with nothingToSave := true })) := by
  have h0 : i.choice ≠ "0" := by rw [h9]; decide
  constructor
  · intro hm
    rw [step_not_exit s i h0, dispatch_c9_mod s i h9 hm]
    rfl
  · intro hm
    rw [step_not_exit s i h0, dispatch_c9_unmod s i h9 hm]
    simp [hm, quietOut]

/-- C4 witness: a concrete modified state saved to a concrete path. -/
theorem C4_save_semantics_witness :
    ((⟨"9", 0, [ 'o', 'u', 't' ]⟩ : Inp).choice = "9") ∧
    ((⟨[[(1, 2, 3)]], true⟩ : St).modified = true) ∧
    step ⟨[[(1, 2, 3)]], true⟩ ⟨"9", 0, [ 'o', 'u', 't' ]⟩ =
      (⟨[[(1, 2, 3)]], false⟩,
        { quietOut with
          saved := Option.some ([[(1, 2, 3)]], [ 'o', 'u', 't' ], 100) }) :=
  ⟨rfl, rfl,
    (C4_save_semantics ⟨[[(1, 2, 3)]], true⟩ ⟨"9", 0, [ 'o', 'u', 't' ]⟩ rfl).1 rfl⟩

/-- C9: when the initial load fails, `main` prints the load error, never
enters the menu loop (so the load is not retried), and the process exit
status is 0. -/
theorem C9_load_failure (e : String) (inputs : List Inp) :
    mainRun (Except.error e) inputs = ⟨0, true, []⟩ := rfl

/-- C10: the `modified` flag is set unconditionally by choices 1–7
(whatever the parameter); choice 9 always leaves the flag false and never
touches the buffer, and when the flag was false it changes nothing and
saves nothing; choice 8, choice 0 and invalid choices leave the whole state
unchanged; and a true flag can only be cleared by a choice-9 iteration. -/
theorem C10_modified_flag (s : St) (i : Inp) :
    (i.choice ∈ opChoices → (step s i).1.modified = true) ∧
    (i.choice = "9" → (step s i).1.modified = false ∧
      (step s i).1.current = s.current) ∧
    (i.choice = "9" → s.modified = false →
      (step s i).1 = s ∧ (step s i).2.saved = Option.none) ∧
    (i.choice = "8" → (step s i).1 = s) ∧
    (i.choice = "0" → (step s i).1 = s) ∧
    (i.choice ∉ opChoices → i.choice ≠ "0" → i.choice ≠ "8" → i.choice ≠ "9" →
      (step s i).1 = s ∧ (step s i).2.invalid = true) ∧
    (s.modified = true → (step s i).1.modified = false → i.choice = "9") := by
  refine ⟨?_, ?_, ?_, ?_, ?_, ?_, ?_⟩
  · intro h
    have h0 : i.choice ≠ "0" := by
      intro he
      rw [he] at h
      simp [opChoices] at h
    rw [step_not_exit s i h0]
    exact dispatch_op_modified s i h
  · intro h9
    have h0 : i.choice ≠ "0" := by rw [h9]; decide
    cases hm : s.modified
    · rw [step_not_exit s i h0, dispatch_c9_unmod s i h9 hm]
      exact ⟨hm, rfl⟩
    · rw [step_not_exit s i h0, dispatch_c9_mod s i h9 hm]
      exact ⟨rfl, rfl⟩
  · intro h9 hm
    have h0 : i.choice ≠ "0" := by rw [h9]; decide
    rw [step_not_exit s i h0, dispatch_c9_unmod s i h9 hm]
    exact ⟨rfl, rfl⟩
  · intro h8
    have h0 : i.choice ≠ "0" := by rw [h8]; decide
    rw [step_not_exit s i h0, dispatch_c8 s i h8]
  · intro h0
    simp [step, h0]
  · intro hop hne0 hne8 hne9
    rw [step_not_exit s i hne0, dispatch_invalid s i hop hne8 hne9]
    exact ⟨rfl, rfl⟩
  · intro hm hmod
    by_contra hne9
    by_cases h0 : i.choice = "0"
    · simp [step, h0] at hmod
      rw [hm] at hmod
      cases hmod
    rw [step_not_exit s i h0] at hmod
    by_cases h8 : i.choice = "8"
    · rw [dispatch_c8 s i h8] at hmod
      rw [hm] at hmod
      cases hmod
    by_cases hop : i.choice ∈ opChoices
    · rw [dispatch_op_modified s i hop] at hmod
      cases hmod
    · rw [dispatch_invalid s i hop h8 hne9] at hmod
      rw [hm] at hmod
      cases hmod

/-- C10 witness: a concrete op iteration sets the flag even at the identity
parameter 1, and a concrete show iteration changes nothing. -/
theorem C10_modified_flag_witness :
    (("3" : String) ∈ opChoices ∧
      (step ⟨[[(9, 9, 9)]], false⟩ ⟨"3", 1, []⟩).1.modified = true) ∧
    (("8" : String) = "8" ∧
      (step ⟨[[(9, 9, 9)]], true⟩ ⟨"8", 1, []⟩).1 = ⟨[[(9, 9, 9)]], true⟩) :=
  ⟨⟨by decide, (C10_modified_flag ⟨[[(9, 9, 9)]], false⟩ ⟨"3", 1, []⟩).1 (by decide)⟩,
   ⟨rfl, (C10_modified_flag ⟨[[(9, 9, 9)]], true⟩ ⟨"8", 1, []⟩).2.2.2.1 rfl⟩⟩

/-! ## Histogram-equalization claim -/

/-- C5: histogram equalization preserves the row count and every row's
width (hence dimensions and the 3-channel pixel type), and it equals the
per-pixel pipeline forward-YCrCb → remap only the luma by the global LUT of
the image's luma plane → inverse conversion, with both chroma channels
passed through untouched. -/
theorem C5_hist_eq_structure (img : Img) :
    (apply_hist_eq img).length = img.length ∧
    (apply_hist_eq img).map List.length = img.map List.length ∧
    apply_hist_eq img = img.map (List.map (fun p =>
      ycrcb2rgb
        (equalizeY ((img.map (List.map (fun q => (rgb2ycrcb q).1))).flatten)
          (rgb2ycrcb p).1,
         (rgb2ycrcb p).2.1, (rgb2ycrcb p).2.2))) := by
  refine ⟨?_, ?_, ?_⟩ <;>
    simp [apply_hist_eq, List.map_map, Function.comp_def]

/-! ## Save-option claims -/

lemma foldl_seg_no_dot (w : List Char) (acc : List Char) (hw : '.' ∉ w) :
    w.foldl (fun acc c => if c = '.' then [] else acc ++ [c]) acc = acc ++ w := by
  induction w generalizing acc with
  | nil => simp
  | cons c cs ih =>
    simp only [List.mem_cons, not_or] at hw
    have hc : ¬c = '.' := fun h => hw.1 h.symm
    rw [List.foldl_cons, if_neg hc, ih (acc ++ [c]) hw.2, List.append_assoc]
    rfl

lemma lastSeg_concat (pre w : List Char) (hw : '.' ∉ w) :
    lastSeg (pre ++ '.' :: w) = w := by
  unfold lastSeg
  rw [List.foldl_append, List.foldl_cons]
  simpa using foldl_seg_no_dot w [] hw

lemma dot_mem_lowerStr {w : List Char} (h : '.' ∈ w) : '.' ∈ lowerStr w := by
  unfold lowerStr
  exact List.mem_map.2 ⟨'.', h, by decide⟩

/-- C6: `save_image` dispatches on the path's extension case-insensitively:
a path whose final dot-segment lowercases to `jpg` or `jpeg` gets JPEG
options (the given quality, `optimize=True`, `subsampling=0`), one whose
final segment lowercases to `png` gets `compress_level=1`, and any other
extension passes no explicit options. -/
theorem C6_save_options (path : List Char) (q : ℤ) :
    (∀ pre w, path = pre ++ '.' :: w → lowerStr w = [ 'j', 'p', 'g' ] →
      save_image path q = SaveOpts.jpeg q true 0) ∧
    (∀ pre w, path = pre ++ '.' :: w → lowerStr w = [ 'j', 'p', 'e', 'g' ] →
      save_image path q = SaveOpts.jpeg q true 0) ∧
    (∀ pre w, path = pre ++ '.' :: w → lowerStr w = [ 'p', 'n', 'g' ] →
      save_image path q = SaveOpts.png 1) ∧
    (lowerStr (lastSeg path) ≠ [ 'j', 'p', 'g' ] →
      lowerStr (lastSeg path) ≠ [ 'j', 'p', 'e', 'g' ] →
      lowerStr (lastSeg path) ≠ [ 'p', 'n', 'g' ] →
      save_image path q = SaveOpts.none) := by
  refine ⟨?_, ?_, ?_, ?_⟩
  · intro pre w hpath hlow
    have hdot : '.' ∉ w := by
      intro hm
      have hmem := dot_mem_lowerStr hm
      rw [hlow] at hmem
      exact absurd hmem (by decide)
    subst hpath
    simp [save_image, lastSeg_concat pre w hdot, hlow]
  · intro pre w hpath hlow
    have hdot : '.' ∉ w := by
      intro hm
      have hmem := dot_mem_lowerStr hm
      rw [hlow] at hmem
      exact absurd hmem (by decide)
    subst hpath
    simp [save_image, lastSeg_concat pre w hdot, hlow]
  · intro pre w hpath hlow
    have hdot : '.' ∉ w := by
      intro hm
      have hmem := dot_mem_lowerStr hm
      rw [hlow] at hmem
      exact absurd hmem (by decide)
    subst hpath
    simp [save_image, lastSeg_concat pre w hdot, hlow]
  · intro h1 h2 h3
    simp [save_image, h1, h2, h3]

/-- C6 witness: an uppercase `.JPG` path gets the JPEG options, a `.png`
path gets the PNG options, a `.bmp` path gets none. -/
theorem C6_save_options_witness :
    (("photo.JPG".data = "photo".data ++ '.' :: "JPG".data) ∧
      lowerStr ("JPG".data) = [ 'j', 'p', 'g' ] ∧
      save_image ("photo.JPG".data) 95 = SaveOpts.jpeg 95 true 0) ∧
    (lowerStr (lastSeg ("a.bmp".data)) ≠ [ 'j', 'p', 'g' ] ∧
      save_image ("a.bmp".data) 100 = SaveOpts.none) :=
  ⟨⟨by decide, by decide,
      (C6_save_options ("photo.JPG".data) 95).1 ("photo".data) ("JPG".data)
        (by decide) (by decide)⟩,
   ⟨by decide,
      (C6_save_options ("a.bmp".data) 100).2.2.2 (by decide) (by decide) (by decide)⟩⟩

/-! ## Range (no-overflow) lemmas -/

lemma clip01_nonneg (x : ℝ) : 0 ≤ clip01 x := le_max_left 0 _

lemma clip01_le_one (x : ℝ) : clip01 x ≤ 1 :=
  max_le zero_le_one (min_le_left 1 x)

lemma asUbyte_range (x : ℝ) (h0 : 0 ≤ x) (h1 : x ≤ 1) : chOk (asUbyte x) := by
  unfold asUbyte chOk
  constructor
  · exact Int.floor_nonneg.2 (by linarith)
  · have hlt : (255 : ℝ) * x + 1/2 < ((256 : ℤ) : ℝ) := by push_cast; linarith
    have := Int.floor_lt.2 hlt
    omega

lemma gammaPix_range (γ : ℝ) (v : ℤ) : chOk (gammaPix γ v) :=
  asUbyte_range _ (clip01_nonneg _) (clip01_le_one _)

lemma logPix_range (g : ℝ) (v : ℤ) : chOk (logPix g v) :=
  asUbyte_range _ (clip01_nonneg _) (clip01_le_one _)

lemma blendPix_range (f : ℚ) (d v : ℤ) : chOk (blendPix f d v) := by
  unfold blendPix chOk clipQ
  constructor
  · exact Int.floor_nonneg.2 (le_max_left 0 _)
  · have hle : max (0 : ℚ) (min 255 ((d : ℚ) + f * ((v : ℚ) - (d : ℚ)))) ≤
        ((255 : ℤ) : ℚ) := by
      push_cast
      exact max_le (by norm_num) (min_le_left _ _)
    have := Int.floor_le_floor hle
    rw [Int.floor_intCast] at this
    exact this

lemma blend3_range (f : ℚ) (d v : Pix) : pixOk (blend3 f d v) :=
  ⟨blendPix_range f d.1 v.1, blendPix_range f d.2.1 v.2.1,
    blendPix_range f d.2.2 v.2.2⟩

lemma sat255_range (x : ℚ) : chOk (sat255 x) := by
  unfold sat255 chOk
  exact ⟨le_max_left 0 _, max_le (by norm_num) (min_le_left _ _)⟩

lemma ycrcb2rgb_range (p : Pix) : pixOk (ycrcb2rgb p) :=
  ⟨sat255_range _, sat255_range _, sat255_range _⟩

lemma imgOk_mapImg (f : Pix → Pix) (h : ∀ p, pixOk (f p)) (img : Img) :
    imgOk (mapImg f img) := by
  intro row hr p hp
  unfold mapImg at hr
  obtain ⟨r0, _, rfl⟩ := List.mem_map.1 hr
  obtain ⟨p0, _, rfl⟩ := List.mem_map.1 hp
  exact h p0

lemma mem_mapIdxFrom {f : ℕ → α → β} {b : β} :
    ∀ {n : ℕ} {l : List α}, b ∈ mapIdxFrom f n l → ∃ i a, a ∈ l ∧ b = f i a := by
  intro n l
  induction l generalizing n with
  | nil => intro h; exact absurd h (List.not_mem_nil b)
  | cons a as ih =>
    intro h
    rw [mapIdxFrom] at h
    rcases List.mem_cons.1 h with h | h
    · exact ⟨n, a, List.mem_cons_self a as, h⟩
    · obtain ⟨i, a0, ha0, rfl⟩ := ih h
      exact ⟨i, a0, List.mem_cons_of_mem a ha0, rfl⟩

/-- C1: no output channel value of any of the seven adjustment operations
ever leaves `[0, 255]` — the normalized-float clipping of gamma and
exposure, the saturating blend of the four PIL enhance operations, and the
saturating casts of the histogram-equalization color conversions together
rule out any overflow or wraparound, for every input buffer and every
parameter value. -/
theorem C1_no_overflow (img : Img) (γ g : ℝ) (fb fc fsh fsat : ℚ) :
    imgOk (apply_gamma img γ) ∧ imgOk (apply_hist_eq img) ∧
    imgOk (adjust_brightness img fb) ∧ imgOk (adjust_contrast img fc) ∧
    imgOk (adjust_sharpness img fsh) ∧ imgOk (adjust_saturation img fsat) ∧
    imgOk (adjust_exposure img g) := by
  refine ⟨?_, ?_, ?_, ?_, ?_, ?_, ?_⟩
  · exact imgOk_mapImg _ (fun p => ⟨gammaPix_range γ p.1, gammaPix_range γ p.2.1,
      gammaPix_range γ p.2.2⟩) img
  · intro row hr p hp
    unfold apply_hist_eq at hr
    obtain ⟨r0, _, rfl⟩ := List.mem_map.1 hr
    obtain ⟨p0, _, rfl⟩ := List.mem_map.1 hp
    exact ycrcb2rgb_range p0
  · exact imgOk_mapImg _ (fun p => blend3_range fb _ p) img
  · exact imgOk_mapImg _ (fun p => blend3_range fc _ p) img
  · intro row hr p hp
    unfold adjust_sharpness at hr
    obtain ⟨i, r0, _, rfl⟩ := mem_mapIdxFrom hr
    obtain ⟨j, p0, _, rfl⟩ := mem_mapIdxFrom hp
    exact blend3_range fsh _ p0
  · exact imgOk_mapImg _ (fun p => blend3_range fsat _ p) img
  · exact imgOk_mapImg _ (fun p => ⟨logPix_range g p.1, logPix_range g p.2.1,
      logPix_range g p.2.2⟩) img

/-! ## Identity-at-factor-1 lemmas -/

lemma clipQ_eq_self {lo hi x : ℚ} (h1 : lo ≤ x) (h2 : x ≤ hi) :
    clipQ lo hi x = x := by
  unfold clipQ
  rw [min_eq_right h2, max_eq_right h1]

lemma blendPix_one (d v : ℤ) (h : chOk v) : blendPix 1 d v = v := by
  unfold blendPix
  have harg : (d : ℚ) + 1 * ((v : ℚ) - (d : ℚ)) = (v : ℚ) := by ring
  rw [harg, clipQ_eq_self (by exact_mod_cast h.1) (by exact_mod_cast h.2),
    Int.floor_intCast]

lemma blend3_one (d p : Pix) (h : pixOk p) : blend3 1 d p = p := by
  obtain ⟨a, b, c⟩ := p
  obtain ⟨h1, h2, h3⟩ := h
  unfold blend3
  rw [blendPix_one _ _ h1, blendPix_one _ _ h2, blendPix_one _ _ h3]

lemma list_map_id_of_mem {f : α → α} :
    ∀ (l : List α), (∀ a ∈ l, f a = a) → l.map f = l := by
  intro l h
  induction l with
  | nil => rfl
  | cons a as ih =>
    rw [List.map_cons, h a (List.mem_cons_self a as),
      ih (fun b hb => h b (List.mem_cons_of_mem a hb))]

lemma mapImg_id (f : Pix → Pix) (img : Img)
    (h : ∀ row ∈ img, ∀ p ∈ row, f p = p) : mapImg f img = img := by
  unfold mapImg
  exact list_map_id_of_mem img
    (fun row hrow => list_map_id_of_mem row (fun p hp => h row hrow p hp))

lemma mapIdxFrom_id {f : ℕ → α → α} :
    ∀ (l : List α) (n : ℕ), (∀ i a, a ∈ l → f i a = a) →
      mapIdxFrom f n l = l := by
  intro l
  induction l with
  | nil => intro n _; rfl
  | cons a as ih =>
    intro n h
    rw [mapIdxFrom, h n a (List.mem_cons_self a as),
      ih (n + 1) (fun i b hb => h i b (List.mem_cons_of_mem a hb))]

/-- C8: with factor 1.0, each of brightness, contrast, sharpness and
saturation is an exact identity on any in-range 8-bit buffer: PIL's blend
with `alpha = 1` returns the original channel values whatever the
degenerate image is. -/
theorem C8_factor_one_identity (img : Img) (h : imgOk img) :
    adjust_brightness img 1 = img ∧ adjust_contrast img 1 = img ∧
    adjust_sharpness img 1 = img ∧ adjust_saturation img 1 = img := by
  refine ⟨?_, ?_, ?_, ?_⟩
  · exact mapImg_id _ img (fun row hr p hp => blend3_one _ p (h row hr p hp))
  · unfold adjust_contrast
    exact mapImg_id _ img (fun row hr p hp => blend3_one _ p (h row hr p hp))
  · unfold adjust_sharpness
    refine mapIdxFrom_id img 0 (fun i row hrow => ?_)
    exact mapIdxFrom_id row 0 (fun j p hp => blend3_one _ p (h row hrow p hp))
  · exact mapImg_id _ img (fun row hr p hp => blend3_one _ p (h row hr p hp))

/-- C8 witness: a concrete in-range buffer is fixed by all four operations
at factor 1. -/
theorem C8_factor_one_identity_witness :
    imgOk [[(10, 20, 30), (0, 255, 128)]] ∧
    adjust_brightness [[(10, 20, 30), (0, 255, 128)]] 1 =
      [[(10, 20, 30), (0, 255, 128)]] ∧
    adjust_sharpness [[(10, 20, 30), (0, 255, 128)]] 1 =
      [[(10, 20, 30), (0, 255, 128)]] :=
  ⟨by decide,
    (C8_factor_one_identity [[(10, 20, 30), (0, 255, 128)]] (by decide)).1,
    (C8_factor_one_identity [[(10, 20, 30), (0, 255, 128)]] (by decide)).2.2.1⟩

/-! ## Frame lemmas for the heap model -/

lemma take_append_left (s bs : Store) : (s ++ bs).take s.length = s := by
  induction s with
  | nil => rfl
  | cons a as ih => simp [List.take_succ_cons, ih]

lemma getD_append_left (s bs : Store) (k : ℕ) (hk : k < s.length) :
    (s ++ bs).getD k [] = s.getD k [] := by
  induction s generalizing k with
  | nil => cases hk
  | cons a as ih =>
    cases k with
    | zero => rfl
    | succ n =>
      simp only [List.length_cons, Nat.succ_lt_succ_iff] at hk
      simpa using ih n hk

lemma freshAlloc_allocBuf (s : Store) (b : Img) : freshAlloc s (allocBuf s b) := by
  unfold freshAlloc allocBuf
  exact ⟨take_append_left s [b], le_refl _,
    fun k hk => getD_append_left s [b] k hk⟩

lemma set_append_singleton (s : Store) (b c : Img) :
    ((s ++ [b]).set s.length c) = s ++ [c] := by
  induction s with
  | nil => rfl
  | cons a as ih => simp [List.set, ih]

lemma freshAlloc_set_alloc (s : Store) (b c d : Img) :
    freshAlloc s (allocBuf ((s ++ [b]).set s.length c) d) := by
  rw [set_append_singleton s b c]
  unfold allocBuf freshAlloc
  refine ⟨?_, ?_, ?_⟩
  · rw [List.append_assoc]
    exact take_append_left s ([c] ++ [d])
  · simp
  · intro k hk
    rw [List.append_assoc]
    exact getD_append_left s ([c] ++ [d]) k hk

/-- C7: none of the seven operations mutates any pre-existing buffer: at
the heap level every operation leaves the old store intact as a prefix
(same buffers, same pixels, retrievable at their old indices) and returns
the index of a freshly allocated result buffer — including histogram
equalization, whose in-place Y-plane write hits only its own freshly
allocated YCrCb intermediate. -/
theorem C7_no_input_mutation (s : Store) (i : ℕ) (γ g : ℝ)
    (fb fc fsh fsat : ℚ) :
    freshAlloc s (applyGammaH s i γ) ∧
    freshAlloc s (applyHistEqH s i) ∧
    freshAlloc s (adjustBrightnessH s i fb) ∧
    freshAlloc s (adjustContrastH s i fc) ∧
    freshAlloc s (adjustSharpnessH s i fsh) ∧
    freshAlloc s (adjustSaturationH s i fsat) ∧
    freshAlloc s (adjustExposureH s i g) :=
  ⟨freshAlloc_allocBuf s _, freshAlloc_set_alloc s _ _ _,
    freshAlloc_allocBuf s _, freshAlloc_allocBuf s _, freshAlloc_allocBuf s _,
    freshAlloc_allocBuf s _, freshAlloc_allocBuf s _⟩

/-- C7 witness: on a one-buffer store, gamma and histogram equalization
leave buffer 0 exactly as it was. -/
theorem C7_no_input_mutation_witness :
    0 < ([ [[(5, 6, 7)]] ] : Store).length ∧
    (applyGammaH [ [[(5, 6, 7)]] ] 0 1).1.getD 0 [] =
      ([ [[(5, 6, 7)]] ] : Store).getD 0 [] ∧
    (applyHistEqH [ [[(5, 6, 7)]] ] 0).1.getD 0 [] =
      ([ [[(5, 6, 7)]] ] : Store).getD 0 [] :=
  ⟨Nat.one_pos,
    (C7_no_input_mutation [ [[(5, 6, 7)]] ] 0 1 1 1 1 1 1).1.2.2 0 Nat.one_pos,
    (C7_no_input_mutation [ [[(5, 6, 7)]] ] 0 1 1 1 1 1 1).2.1.2.2 0 Nat.one_pos⟩

/-! ## Exposure-curve claims -/

lemma asUbyte_clip01_of_one_le {x : ℝ} (h : 1 ≤ x) : asUbyte (clip01 x) = 255 := by
  unfold asUbyte clip01
  rw [min_eq_left h, max_eq_right zero_le_one,
    show (255 : ℝ) * 1 + 1/2 = 511/2 by norm_num, Int.floor_eq_iff]
  constructor <;> norm_num

lemma asUbyte_clip01_le_254 {x : ℝ} (h0 : 0 ≤ x) (h1 : x ≤ 499/500) :
    asUbyte (clip01 x) ≤ 254 := by
  unfold asUbyte clip01
  rw [min_eq_right (le_trans h1 (by norm_num)), max_eq_right h0]
  have hmul : (255 : ℝ) * x ≤ 255 * (499/500) := by linarith
  have hlt : (255 : ℝ) * x + 1/2 < ((255 : ℤ) : ℝ) := by push_cast; linarith
  have := Int.floor_lt.2 hlt
  omega

lemma two_logb_ge_one : (1 : ℝ) ≤ 2 * Real.logb 2 (1 + asFloat 128) := by
  have hval : (1 : ℝ) + asFloat 128 = 383/255 := by unfold asFloat; norm_num
  rw [hval]
  have hlog2 : (0 : ℝ) < Real.log 2 := Real.log_pos (by norm_num)
  have hpow : Real.log ((383/255 : ℝ) ^ (2 : ℕ)) = 2 * Real.log (383/255) := by
    rw [Real.log_pow]
    norm_num
  have hle : Real.log 2 ≤ Real.log ((383/255 : ℝ) ^ (2 : ℕ)) :=
    Real.log_le_log (by norm_num) (by norm_num)
  have hsq : Real.log 2 ≤ 2 * Real.log (383/255) := by linarith
  rw [Real.logb, ← mul_div_assoc]
  exact (one_le_div hlog2).2 hsq

lemma logPix_two_128 : logPix 2 128 = 255 := by
  unfold logPix
  exact asUbyte_clip01_of_one_le two_logb_ge_one

lemma specLogRemap_two_128 : specLogRemapPix 2 128 ≤ 254 := by
  unfold specLogRemapPix
  apply asUbyte_clip01_le_254
  · have h1 : (1 : ℝ) ≤ 1 + 2 * asFloat 128 := by unfold asFloat; norm_num
    exact div_nonneg (Real.log_nonneg h1) (Real.log_nonneg (by norm_num))
  · have hval : (1 : ℝ) + 2 * asFloat 128 = 511/255 := by unfold asFloat; norm_num
    have hbase : (1 : ℝ) + 2 = 3 := by norm_num
    rw [hval, hbase]
    have hlog3 : (1 : ℝ) < Real.log 3 := by
      have he : Real.exp 1 < 3 := lt_trans Real.exp_one_lt_d9 (by norm_num)
      exact (Real.lt_log_iff_exp_lt (by norm_num)).2 he
    have hup : Real.log (511/255 : ℝ) ≤ 499/500 := by
      rw [Real.log_le_iff_le_exp (by norm_num)]
      have h1 : (1499 : ℝ)/1000 ≤ Real.exp (499/1000) := by
        have := Real.add_one_le_exp ((499 : ℝ)/1000)
        linarith
      have h2 : ((1499 : ℝ)/1000) * ((1499 : ℝ)/1000) ≤
          Real.exp (499/1000) * Real.exp (499/1000) :=
        mul_le_mul h1 h1 (by norm_num) (Real.exp_pos _).le
      rw [← Real.exp_add] at h2
      rw [show (499 : ℝ)/1000 + 499/1000 = 499/500 by norm_num] at h2
      have h4 : (511 : ℝ)/255 ≤ (1499 : ℝ)/1000 * ((1499 : ℝ)/1000) := by norm_num
      linarith
    calc Real.log (511/255 : ℝ) / Real.log 3
        ≤ Real.log (511/255 : ℝ) :=
          div_le_self (Real.log_nonneg (by norm_num)) hlog3.le
      _ ≤ 499/500 := hup

/-- C3 counterexample: the spec's formula `log(1+gain·in)/log(1+gain)` does
not match the source at gain 2 on the mid-gray pixel 128: the source
(`gain * log2(1 + in)`, clipped) saturates to 255 there, while the spec's
formula stays at most 254. -/
theorem C3_counterexample :
    adjust_exposure [[(128, 128, 128)]] 2 ≠
      spec_adjust_exposure [[(128, 128, 128)]] 2 := by
  intro h
  have hpix : logPix 2 128 = specLogRemapPix 2 128 := by
    have h0 := congrArg (fun l : Img => ((l.getD 0 []).getD 0 (0, 0, 0)).1) h
    simpa [adjust_exposure, spec_adjust_exposure, mapImg, mapPix] using h0
  rw [logPix_two_128] at hpix
  have hle := specLogRemap_two_128
  rw [← hpix] at hle
  norm_num at hle

lemma clip01_mono {x y : ℝ} (h : x ≤ y) : clip01 x ≤ clip01 y :=
  max_le_max (le_refl 0) (min_le_min (le_refl 1) h)

/-- C3 amended: the exposure operation computes the logarithmic remap
`out = gain * log2(1 + in)` on normalized values and then clips; for every
positive gain this curve is monotone nondecreasing in the input, and at
gain = 1 it coincides exactly with the spec's formula
`log(1 + gain·in)/log(1 + gain)` — but not at other gains. -/
theorem C3_exposure_curve :
    (∀ gain : ℝ, 0 < gain → ∀ v w : ℤ, 0 ≤ v → v ≤ w →
      logPix gain v ≤ logPix gain w) ∧
    (∀ v : ℤ, logPix 1 v = specLogRemapPix 1 v) := by
  constructor
  · intro gain hg v w hv hvw
    unfold logPix asUbyte
    apply Int.floor_le_floor
    have hv0 : (0 : ℝ) ≤ (v : ℝ) := by exact_mod_cast hv
    have hvw0 : (v : ℝ) ≤ (w : ℝ) := by exact_mod_cast hvw
    have h1 : (0 : ℝ) < 1 + asFloat v := by
      unfold asFloat
      have : (0 : ℝ) ≤ (v : ℝ) / 255 := by positivity
      linarith
    have h2 : (1 : ℝ) + asFloat v ≤ 1 + asFloat w := by
      unfold asFloat
      linarith
    have hlogb := Real.logb_le_logb_of_le (by norm_num : (1 : ℝ) < 2) h1 h2
    have hmul : gain * Real.logb 2 (1 + asFloat v) ≤
        gain * Real.logb 2 (1 + asFloat w) :=
      mul_le_mul_of_nonneg_left hlogb hg.le
    have hc := clip01_mono hmul
    linarith
  · intro v
    unfold logPix specLogRemapPix
    have h1 : (1 : ℝ) * Real.logb 2 (1 + asFloat v) =
        Real.log (1 + 1 * asFloat v) / Real.log (1 + 1) := by
      rw [one_mul, one_mul, Real.logb]
      norm_num
    rw [h1]

/-- C3 witness for the amended theorem at gain 1, inputs 0 ≤ 5. -/
theorem C3_exposure_curve_witness :
    (0 : ℝ) < 1 ∧ (0 : ℤ) ≤ 0 ∧ (0 : ℤ) ≤ 5 ∧ logPix 1 0 ≤ logPix 1 5 :=
  ⟨one_pos, le_refl 0, by decide,
    C3_exposure_curve.1 1 one_pos 0 5 (le_refl 0) (by decide)⟩
